import Mathlib

set_option maxHeartbeats 1000000

/-! Shallow embedding of the mailit package (mailit/__init__.py): recipient
construction, CSV-row ingestion with email-field autodetection, batching of
recipient streams, and mail composition / sending. -/

/-- Python str.title on ASCII text: a letter starts a new word exactly when the
previous character is not a letter; word-starting letters are uppercased and
the remaining letters lowercased.  The Bool argument records whether the
previous character was a (cased) letter. -/
def titleCaseAux : Bool → List Char → List Char
  | _, [] => []
  | prev, c :: cs =>
    if c.isAlpha then
      (if prev then c.toLower else c.toUpper) :: titleCaseAux true cs
    else
      c :: titleCaseAux false cs

/-- Python str.title on a string; mailit applies it to the derived name. -/
def pyTitle (s : String) : String := String.mk (titleCaseAux false s.data)

/-- Python str.upper on ASCII text, character by character (semantically the
same as String.toUpper, defined structurally so that it evaluates). -/
def pyUpper (s : String) : String := String.mk (s.data.map Char.toUpper)

/-- Python truthiness of kwargs.get(key): both a missing key (None) and an
empty string are falsy; any non-empty string is truthy. -/
def truthy (o : Option String) : Bool := decide (o.getD "" ≠ "")

/-- One entry of the internal merge-variable format: a dict with an uppercased
name and a content value, as built by Recipient.__init__ and by
Mail.add_global_merge_var. -/
structure MergeVar where
  name : String
  content : String
  deriving DecidableEq

/-- Recipient data structure (class Recipient in mailit/__init__.py). -/
structure Recipient where
  email : String
  first_name : Option String
  last_name : Option String
  name : String
  merge_vars : List MergeVar
  deriving DecidableEq

/-- kwargs.get(key): the keyword arguments captured by Recipient.__init__ are
modelled as an ordered association list with distinct keys. -/
def kwGet (kwargs : List (String × String)) (key : String) : Option String :=
  (kwargs.find? (fun p => p.1 == key)).map (fun p => p.2)

/-- Recipient.__init__(self, email, **kwargs): the inner name() helper derives
the display name from first_name/last_name with Python truthiness, the name
keyword (when present, even empty) takes precedence, the result is
title-cased, and every captured keyword argument becomes a merge-variable
entry with uppercased name. -/
def Recipient.init (email : String) (kwargs : List (String × String)) : Recipient :=
  let fn := kwGet kwargs "first_name"
  let ln := kwGet kwargs "last_name"
  let defaultName : String :=
    if truthy fn && truthy ln then fn.getD "" ++ " " ++ ln.getD ""
    else if truthy fn then fn.getD ""
    else ""
  { email := email
    first_name := fn
    last_name := ln
    name := pyTitle ((kwGet kwargs "name").getD defaultName)
    merge_vars := kwargs.map (fun p => { name := pyUpper p.1, content := p.2 }) }

/-- Spec wording for claim C4: a name part is "present" when it is supplied
and non-empty. -/
def specPresent (o : Option String) : Bool := decide (o.getD "" ≠ "")

/-- Spec wording for claim C4: the derived display name is the title-cased
form of the explicit name when supplied, else "first last" when both parts
are present, else the first name alone, else the empty string. -/
def specDerivedName (first_name last_name name : Option String) : String :=
  pyTitle (name.getD
    (if specPresent first_name && specPresent last_name then
      first_name.getD "" ++ " " ++ last_name.getD ""
    else if specPresent first_name then first_name.getD ""
    else ""))

/-- One stored image of the composer: the internal dict with base64 content,
MIME type (None when the extension was unrecognised) and the key name. -/
structure ImageData where
  content : String
  type : Option String
  name : String
  deriving DecidableEq

/-- Mail composer state (class Mail): template text, image map (an ordered
association list with unique keys), global merge variables and the scalar
send parameters.  The Mandrill client handle carries no modelled state. -/
structure Mail where
  template : Option String
  images : List (String × ImageData)
  merge_vars : List MergeVar
  subject : String
  from_email : String
  from_name : String
  deriving DecidableEq

/-- Mail.clear(): the empty-defaults state set by the constructor. -/
def Mail.cleared : Mail :=
  { template := none, images := [], merge_vars := [], subject := ""
    from_email := "", from_name := "" }

/-- Mail.global_merge_vars property: returns the internal merge-var list. -/
def Mail.global_merge_vars (m : Mail) : List MergeVar := m.merge_vars

/-- Mail.add_global_merge_var(name, content): appends an entry in the internal
format with uppercased name. -/
def Mail.add_global_merge_var (m : Mail) (name content : String) : Mail :=
  { m with merge_vars := m.merge_vars ++ [{ name := pyUpper name, content := content }] }

/-- Mail.remove_global_merge_var(name): first_true finds the first entry whose
name equals the uppercased argument, and list.remove deletes that first
matching entry.  When no entry matches, first_true yields the default False
and list.remove raises ValueError, modelled as none; the state is untouched. -/
def Mail.remove_global_merge_var (m : Mail) (name : String) : Option Mail :=
  match m.merge_vars.find? (fun x => x.name == pyUpper name) with
  | some _ => some { m with merge_vars := m.merge_vars.eraseP (fun x => x.name == pyUpper name) }
  | none => none

/-- Mail.remove_image(filename): del self.images[filename] removes the entry
for the key; a missing key raises KeyError, modelled as none. -/
def Mail.remove_image (m : Mail) (filename : String) : Option Mail :=
  match m.images.find? (fun p => p.1 == filename) with
  | some _ => some { m with images := m.images.eraseP (fun p => p.1 == filename) }
  | none => none

/-- Mail.send's grouper with chunk size m + 1, fuelled for structural
recursion: itertools.zip_longest over m + 1 copies of one shared iterator
yields consecutive chunks of m + 1 slots, the last chunk padded with the
fillvalue None.  The fuel bounds the number of chunks; l.length is always
enough since every chunk consumes at least one element. -/
def grouperFuel {α : Type} (m : Nat) : Nat → List α → List (List (Option α))
  | _, [] => []
  | 0, _ :: _ => []
  | fuel + 1, x :: xs =>
    (((x :: xs).take (m + 1)).map some ++ List.replicate ((m + 1) - (x :: xs).length) none)
      :: grouperFuel m fuel ((x :: xs).drop (m + 1))

/-- grouper(iterable, n, fillvalue=None) from Mail.send: collects the input
into fixed-length chunks of n slots.  With n = 0, zip_longest receives no
iterators and yields nothing. -/
def grouper {α : Type} (n : Nat) (l : List α) : List (List (Option α)) :=
  match n with
  | 0 => []
  | m + 1 => grouperFuel m l.length l

/-- One entry of the to list of a message: dict(name, email, type="to"). -/
structure ToEntry where
  name : String
  email : String
  type : String
  deriving DecidableEq

/-- One entry of the per-recipient merge_vars list of a message:
dict(rcpt=email, vars=recipient.merge_vars). -/
structure RcptVars where
  rcpt : String
  vars : List MergeVar
  deriving DecidableEq

/-- The assembled per-batch request payload (the message dict of Mail.send);
fields that are fixed protocol flags in the source are carried literally.
The field to_entries models the dict key named to, which is reserved in
Lean. -/
structure Message where
  from_email : String
  from_name : String
  to_entries : List ToEntry
  preserve_recipients : Bool
  subject : String
  merge : Bool
  merge_language : String
  global_merge_vars : List MergeVar
  merge_vars : List RcptVars
  html : Option String
  images : List ImageData
  deriving DecidableEq

/-- The body of Mail.send's batch loop up to the message dict: the zip step
pairs a to entry and a merge_vars entry per non-None recipient of the batch;
unpacking zero pairs into the two variables raises ValueError, modelled as an
error.  Otherwise the message payload is assembled from the composer state. -/
def composeBatch (m : Mail) (batch : List (Option Recipient)) : Except String Message :=
  if batch.reduceOption.isEmpty then
    .error "ValueError: not enough values to unpack"
  else
    .ok
      { from_email := m.from_email
        from_name := m.from_name
        to_entries := batch.reduceOption.map (fun r => { name := r.name, email := r.email, type := "to" })
        preserve_recipients := false
        subject := m.subject
        merge := true
        merge_language := "mailchimp"
        global_merge_vars := m.global_merge_vars
        merge_vars := batch.reduceOption.map (fun r => { rcpt := r.email, vars := r.merge_vars })
        html := m.template
        images := m.images.map (fun p => p.2) }

/-- The for-batch loop of Mail.send: compose each batch in order; in dry-run
mode the transport call is skipped and nothing is recorded, otherwise the
payload goes to the external collaborator and its response is collected.
Returns the collected responses together with the list of payloads actually
handed to the transport. -/
def sendLoop {TR : Type} (m : Mail) (transport : Message → TR) (dry_run : Bool) :
    List (List (Option Recipient)) → Except String (List TR × List Message)
  | [] => .ok ([], [])
  | b :: bs =>
    match composeBatch m b with
    | .error e => .error e
    | .ok msg =>
      match sendLoop m transport dry_run bs with
      | .error e => .error e
      | .ok (rs, calls) =>
        .ok (if dry_run then (rs, calls) else (transport msg :: rs, msg :: calls))

/-- Mail.send(recipients, batch_size, dry_run): batches the recipients with
grouper and runs the batch loop.  The method reads the composer state but
never assigns to it, so the state is returned unchanged alongside the result
list and the transport calls. -/
def Mail.send {TR : Type} (m : Mail) (transport : Message → TR)
    (recipients : List Recipient) (batch_size : Nat) (dry_run : Bool) :
    Except String (Mail × List TR × List Message) :=
  match sendLoop m transport dry_run (grouper batch_size recipients) with
  | .error e => .error e
  | .ok (rs, calls) => .ok (m, rs, calls)

/-- Matcher for the regex fragment [^@]*\.[^@]+ at the start of the text:
some @-free run (possibly empty), then a literal dot followed by at least one
further non-@ character. -/
def matchDotPart : List Char → Bool
  | [] => false
  | c :: rest =>
    if c == '@' then false
    else if c == '.' && (match rest with | d :: _ => d != '@' | [] => false) then true
    else matchDotPart rest

/-- Matcher for the regex fragment [^@]+\.[^@]+ at the start of the text: a
non-empty @-free run, then a dot, then at least one non-@ character. -/
def matchDomain : List Char → Bool
  | [] => false
  | c :: rest => c != '@' && matchDotPart rest

/-- Matcher for the whole pattern [^@]+@[^@]+\.[^@]+ starting at the first
character, i.e. re.match semantics: the leading [^@]+ is forced to end at the
first @ of the text, so a match exists exactly when a non-empty @-free prefix
is followed by @ and then by the domain fragment.  The Bool argument records
whether at least one local-part character was consumed. -/
def emailMatchAux : Bool → List Char → Bool
  | _, [] => false
  | seenLocal, c :: rest =>
    if c == '@' then seenLocal && matchDomain rest
    else emailMatchAux true rest

/-- re.match(r"[^@]+@[^@]+\.[^@]+", s) of csvfile_to_recipients: the pattern
must match starting at the first character of s (trailing text allowed). -/
def emailReMatch (s : String) : Bool := emailMatchAux false s.data

/-- Helper for the claim-side semantics: does the pattern match starting at
any position of the text? -/
def searchAux : List Char → Bool
  | [] => false
  | c :: rest => emailMatchAux false (c :: rest) || searchAux rest

/-- Claim-side definition, following the claim words for C2: the pattern is
taken as unanchored, so any substring match of the value counts (re.search
semantics), to be compared with emailReMatch from the source. -/
def emailSearchAnywhere (s : String) : Bool := searchAux s.data

/-- The detection loop of csvfile_to_recipients: scan the header fields in
declared order and select the first whose value in the first data row matches
the email pattern under re.match.  getattr on the namedtuple row is lookup by
field name, which with the unique namedtuple field names is exactly the
positional pairing of header fields with row values. -/
def findEmailField (fields : List String) (row : List String) : Option String :=
  ((fields.zip row).find? (fun p => emailReMatch p.2)).map (fun p => p.1)

/-- Processing of one data row: Row._make fails when the value count differs
from the field count; getattr(data, email_field) fails when the field is not
in the schema; otherwise kwargs is the row dict with the email key overridden
to the resolved value, and Recipient(**kwargs) binds the email key to the
positional email parameter, so the captured keyword arguments are all columns
except one named email. -/
def rowToRecipient (fields : List String) (email_field : String) (row : List String) :
    Except String Recipient :=
  if row.length = fields.length then
    match List.lookup email_field (fields.zip row) with
    | some v => .ok (Recipient.init v ((fields.zip row).filter (fun p => p.1 != "email")))
    | none => .error "AttributeError"
  else .error "row arity mismatch"

/-- Sequential effect of a Python loop over a generator that may raise: apply
f to each element in order, stopping at the first error. -/
def mapExcept {β γ : Type} (f : β → Except String γ) : List β → Except String (List γ)
  | [] => .ok []
  | a :: as =>
    match f a with
    | .error e => .error e
    | .ok c =>
      match mapExcept f as with
      | .error e => .error e
      | .ok cs => .ok (c :: cs)

/-- csvfile_to_recipients(csvfile, email_field) at the level of the parsed
header fields and data rows.  Without an explicit email field the first data
row is read eagerly (an empty reader raises), the email field is autodetected
from it, a missing match raises before any Recipient is produced, and the
first row is emitted with the detected field; all further rows are processed
by the trailing loop with the resolved field. -/
def csvfile_to_recipients (fields : List String) (rows : List (List String))
    (email_field : Option String) : Except String (List Recipient) :=
  match email_field with
  | some ef => mapExcept (rowToRecipient fields ef) rows
  | none =>
    match rows with
    | [] => .error "RuntimeError: generator raised StopIteration"
    | r0 :: rest =>
      if r0.length = fields.length then
        match findEmailField fields r0 with
        | none => .error "Could not guess email field."
        | some ef =>
          match rowToRecipient fields ef r0 with
          | .error e => .error e
          | .ok r =>
            match mapExcept (rowToRecipient fields ef) rest with
            | .error e => .error e
            | .ok rs => .ok (r :: rs)
      else .error "row arity mismatch"

/-- A sample image entry for concrete instantiations. -/
def exampleImage : ImageData :=
  { content := "aGk=", type := some "image/png", name := "logo" }

/-- A sample composer state for concrete instantiations. -/
def exampleMail : Mail :=
  { template := some "<p>Hi</p>", images := [("logo", exampleImage)]
    merge_vars := [{ name := "TEST", content := "value" }]
    subject := "s", from_email := "f@example.com", from_name := "F" }

/-- Sample recipients for concrete instantiations. -/
def recA : Recipient := Recipient.init "a" []

/-- Sample recipients for concrete instantiations. -/
def recB : Recipient := Recipient.init "b" []

/-- Sample recipients for concrete instantiations. -/
def recC : Recipient := Recipient.init "c" []

/-- The recipient produced from header mail,first_name and the data row
u@v.w,bob with email field mail. -/
def recBob : Recipient :=
  { email := "u@v.w", first_name := some "bob", last_name := none, name := "Bob"
    merge_vars := [{ name := "MAIL", content := "u@v.w" },
                   { name := "FIRST_NAME", content := "bob" }] }

/-- reduceOption undoes a map of some. -/
theorem reduceOption_map_some {α : Type} (t : List α) : (t.map some).reduceOption = t := by
  induction t with
  | nil => rfl
  | cons a t ih => simp [List.reduceOption_cons_of_some, ih]

/-- reduceOption of a block of sentinels is empty. -/
theorem reduceOption_replicate_none {α : Type} (k : Nat) :
    (List.replicate k (none : Option α)).reduceOption = [] := by
  induction k with
  | zero => rfl
  | succ k ih => simp [List.replicate_succ, List.reduceOption_cons_of_none, ih]

/-- The real recipients of one padded chunk are exactly the taken prefix. -/
theorem chunk_reduceOption {α : Type} (N : Nat) (l : List α) :
    ((l.take N).map some ++ List.replicate (N - l.length) none).reduceOption = l.take N := by
  rw [List.reduceOption_append, reduceOption_map_some, reduceOption_replicate_none,
    List.append_nil]

/-- grouperFuel ignores the list argument when it is empty, whatever the
fuel. -/
theorem grouperFuel_nil {α : Type} (m fuel : Nat) :
    grouperFuel m fuel ([] : List α) = [] := by
  cases fuel <;> rfl

/-- Combined characterisation of the grouper chunks, proved by induction on
the fuel: chunk count, chunk sizes, sentinel-padding shape, concatenation of
the real elements, non-emptiness of every chunk, and the real length of the
final chunk. -/
theorem grouperFuel_props {α : Type} (m : Nat) :
    ∀ (fuel : Nat) (l : List α), l.length ≤ fuel →
      (grouperFuel m fuel l).length = (l.length + m) / (m + 1) ∧
      (∀ b ∈ grouperFuel m fuel l, b.length = m + 1) ∧
      (∀ b ∈ grouperFuel m fuel l,
        b = b.reduceOption.map some ++ List.replicate ((m + 1) - b.reduceOption.length) none) ∧
      ((grouperFuel m fuel l).map List.reduceOption).flatten = l ∧
      (∀ b ∈ grouperFuel m fuel l, b.reduceOption ≠ []) ∧
      (l = [] ∨ ∃ pre b, grouperFuel m fuel l = pre ++ [b] ∧
        b.reduceOption.length = if (m + 1) ∣ l.length then m + 1 else l.length % (m + 1)) := by
  intro fuel
  induction fuel with
  | zero =>
    intro l hl
    have h0 : l = [] := List.length_eq_zero.mp (Nat.le_zero.mp hl)
    subst h0
    refine ⟨?_, ?_, ?_, rfl, ?_, Or.inl rfl⟩
    · show (0 : Nat) = (0 + m) / (m + 1)
      rw [Nat.zero_add, Nat.div_eq_of_lt (by omega)]
    · intro b hb; simp [grouperFuel_nil] at hb
    · intro b hb; simp [grouperFuel_nil] at hb
    · intro b hb; simp [grouperFuel_nil] at hb
  | succ fuel ih =>
    intro l hl
    cases l with
    | nil =>
      refine ⟨?_, ?_, ?_, rfl, ?_, Or.inl rfl⟩
      · show (0 : Nat) = (0 + m) / (m + 1)
        rw [Nat.zero_add, Nat.div_eq_of_lt (by omega)]
      · intro b hb; simp [grouperFuel_nil] at hb
      · intro b hb; simp [grouperFuel_nil] at hb
      · intro b hb; simp [grouperFuel_nil] at hb
    | cons x xs =>
      have hdrop : ((x :: xs).drop (m + 1)).length ≤ fuel := by
        simp only [List.length_drop, List.length_cons] at hl ⊢
        omega
      obtain ⟨IH1, IH2, IH3, IH4, IH5, IH6⟩ := ih ((x :: xs).drop (m + 1)) hdrop
      have hchunk : (((x :: xs).take (m + 1)).map some ++
          List.replicate ((m + 1) - (x :: xs).length) none).reduceOption
            = (x :: xs).take (m + 1) := chunk_reduceOption (m + 1) (x :: xs)
      have heq : grouperFuel m (fuel + 1) (x :: xs) =
          (((x :: xs).take (m + 1)).map some ++
            List.replicate ((m + 1) - (x :: xs).length) none)
            :: grouperFuel m fuel ((x :: xs).drop (m + 1)) := rfl
      rw [heq]
      refine ⟨?_, ?_, ?_, ?_, ?_, ?_⟩
      · simp only [List.length_cons]
        rw [IH1]
        simp only [List.length_drop, List.length_cons]
        have hS : xs.length + 1 + m = xs.length + (m + 1) := by omega
        rw [hS, Nat.add_div_right _ (by omega)]
        by_cases hm : m ≤ xs.length
        · have h2 : xs.length + 1 - (m + 1) + m = xs.length := by omega
          rw [h2]
        · have h2 : xs.length + 1 - (m + 1) + m = m := by omega
          rw [h2, Nat.div_eq_of_lt (by omega), Nat.div_eq_of_lt (by omega)]
      · intro b hb
        rw [List.mem_cons] at hb
        rcases hb with rfl | hb
        · simp only [List.length_append, List.length_map, List.length_take,
            List.length_replicate, List.length_cons]
          omega
        · exact IH2 b hb
      · intro b hb
        rw [List.mem_cons] at hb
        rcases hb with rfl | hb
        · rw [hchunk]
          have hcount : (m + 1) - ((x :: xs).take (m + 1)).length
              = (m + 1) - (x :: xs).length := by
            simp only [List.length_take, List.length_cons]
            omega
          rw [hcount]
        · exact IH3 b hb
      · simp only [List.map_cons, List.flatten_cons]
        rw [hchunk, IH4]
        exact List.take_append_drop _ _
      · intro b hb
        rw [List.mem_cons] at hb
        rcases hb with rfl | hb
        · rw [hchunk, List.take_succ_cons]
          exact List.cons_ne_nil _ _
        · exact IH5 b hb
      · refine Or.inr ?_
        by_cases hd : (x :: xs).drop (m + 1) = []
        · refine ⟨[], ((x :: xs).take (m + 1)).map some ++
            List.replicate ((m + 1) - (x :: xs).length) none, ?_, ?_⟩
          · rw [hd, grouperFuel_nil]
            rfl
          · rw [hchunk]
            have hlen2 : (x :: xs).length ≤ m + 1 := List.drop_eq_nil_iff.mp hd
            rw [List.take_of_length_le hlen2]
            by_cases hdvd : (m + 1) ∣ (x :: xs).length
            · rw [if_pos hdvd]
              have h3 := Nat.le_of_dvd (by simp) hdvd
              omega
            · rw [if_neg hdvd]
              have h3 : (x :: xs).length ≠ m + 1 := by
                intro hcon
                exact hdvd (hcon ▸ dvd_refl _)
              rw [Nat.mod_eq_of_lt (by omega)]
        · rcases IH6 with hcontra | ⟨pre, b, hpre, hblen⟩
          · exact absurd hcontra hd
          · refine ⟨(((x :: xs).take (m + 1)).map some ++
              List.replicate ((m + 1) - (x :: xs).length) none) :: pre, b, ?_, ?_⟩
            · rw [hpre]
              rfl
            · rw [hblen]
              have hgt : m + 1 < (x :: xs).length := by
                rcases Nat.lt_or_ge (m + 1) (x :: xs).length with h4 | h4
                · exact h4
                · exact absurd (List.drop_eq_nil_iff.mpr h4) hd
              have hrew : (x :: xs).length = ((x :: xs).drop (m + 1)).length + (m + 1) := by
                simp only [List.length_drop]
                omega
              rw [hrew, Nat.add_mod_right]
              by_cases hdvd : (m + 1) ∣ ((x :: xs).drop (m + 1)).length
              · rw [if_pos hdvd, if_pos (Nat.dvd_add hdvd (dvd_refl _))]
              · rw [if_neg hdvd, if_neg ?_]
                intro hcon
                have h5 := Nat.dvd_sub' hcon (dvd_refl (m + 1))
                rw [Nat.add_sub_cancel] at h5
                exact hdvd h5

/-- Every batch emitted by the grouper holds at least one real recipient, for
any batch size (with size 0 no batch is emitted at all). -/
theorem grouper_batches_nonempty {α : Type} (n : Nat) (l : List α) :
    ∀ b ∈ grouper n l, b.reduceOption ≠ [] := by
  cases n with
  | zero => intro b hb; simp [grouper] at hb
  | succ m =>
    intro b hb
    exact (grouperFuel_props m l.length l le_rfl).2.2.2.2.1 b hb

/-- The zip step of Mail.send succeeds on every batch containing at least one
real recipient. -/
theorem composeBatch_ok (m : Mail) (b : List (Option Recipient))
    (hb : b.reduceOption ≠ []) : ∃ msg, composeBatch m b = .ok msg := by
  have hE : b.reduceOption.isEmpty = false := by
    cases hred : b.reduceOption with
    | nil => exact absurd hred hb
    | cons c cs => rfl
  unfold composeBatch
  rw [hE]
  exact ⟨_, rfl⟩

/-- The batch loop of Mail.send succeeds whenever every batch has a real
recipient, and in dry-run mode it collects nothing and calls no transport. -/
theorem sendLoop_ok {TR : Type} (m : Mail) (transport : Message → TR) (dry : Bool)
    (bs : List (List (Option Recipient))) (h : ∀ b ∈ bs, b.reduceOption ≠ []) :
    ∃ rs calls, sendLoop m transport dry bs = .ok (rs, calls) ∧
      (dry = true → rs = [] ∧ calls = []) := by
  induction bs with
  | nil => exact ⟨[], [], rfl, fun _ => ⟨rfl, rfl⟩⟩
  | cons b bs ih =>
    obtain ⟨msg, hmsg⟩ := composeBatch_ok m b (h b (by simp))
    obtain ⟨rs, calls, hloop, hdry⟩ := ih (fun c hc => h c (by simp [hc]))
    cases dry with
    | true =>
      refine ⟨rs, calls, ?_, fun _ => hdry rfl⟩
      simp only [sendLoop]
      rw [hmsg, hloop]
      rfl
    | false =>
      refine ⟨transport msg :: rs, msg :: calls, ?_, by intro hcon; cases hcon⟩
      simp only [sendLoop]
      rw [hmsg, hloop]
      rfl

/-- A successful find? returns the first element satisfying the predicate:
there is a position holding the result, and every earlier position fails the
predicate. -/
theorem find?_first_index {α : Type} (p : α → Bool) (l : List α) (a : α)
    (h : l.find? p = some a) :
    ∃ i : Nat, l[i]? = some a ∧ p a = true ∧
      ∀ j : Nat, j < i → ∀ b : α, l[j]? = some b → p b = false := by
  induction l with
  | nil => simp [List.find?] at h
  | cons x xs ih =>
    by_cases hx : p x = true
    · rw [List.find?_cons_of_pos _ hx] at h
      obtain rfl : x = a := by cases h; rfl
      refine ⟨0, by simp, hx, ?_⟩
      intro j hj
      exact absurd hj (Nat.not_lt_zero j)
    · rw [List.find?_cons_of_neg _ (by simpa using hx)] at h
      obtain ⟨i, h1, h2, h3⟩ := ih h
      refine ⟨i + 1, by simpa using h1, h2, ?_⟩
      intro j hj b hb
      cases j with
      | zero =>
        obtain rfl : b = x := by simpa using hb.symm
        simpa using hx
      | succ j2 =>
        exact h3 j2 (by omega) b (by simpa using hb)

/-- A successful row conversion determines the looked-up email value and the
shape of the produced Recipient. -/
theorem rowToRecipient_ok {fields : List String} {ef : String} {row : List String}
    {r : Recipient} (h : rowToRecipient fields ef row = .ok r) :
    ∃ v, List.lookup ef (fields.zip row) = some v ∧
      r = Recipient.init v ((fields.zip row).filter (fun p => p.1 != "email")) := by
  unfold rowToRecipient at h
  split at h
  · split at h
    · rename_i v hv
      cases h
      exact ⟨v, hv, rfl⟩
    · cases h
  · cases h

/-- C1: for every finite recipient list of length L and every batch size
n > 0, Mail.send's grouper yields exactly ceil(L/n) batches, each of exactly
n slots with the real recipients first and sentinel (none) padding after
them; concatenating the real recipients of all batches in order reproduces
the input, and the final batch holds L mod n real recipients (n when n
divides L). -/
theorem c1_batching_law (n : Nat) (l : List Recipient) (hn : 0 < n) :
    (grouper n l).length = (l.length + n - 1) / n ∧
    (∀ b ∈ grouper n l, b.length = n) ∧
    (∀ b ∈ grouper n l,
      b = b.reduceOption.map some ++ List.replicate (n - b.reduceOption.length) none) ∧
    ((grouper n l).map List.reduceOption).flatten = l ∧
    (l ≠ [] → ∃ b, (grouper n l).getLast? = some b ∧
      b.reduceOption.length = if n ∣ l.length then n else l.length % n) := by
  obtain ⟨m, rfl⟩ : ∃ m, n = m + 1 := ⟨n - 1, by omega⟩
  obtain ⟨P1, P2, P3, P4, P5, P6⟩ := grouperFuel_props m l.length l le_rfl
  refine ⟨?_, P2, P3, P4, ?_⟩
  · show (grouperFuel m l.length l).length = (l.length + (m + 1) - 1) / (m + 1)
    rw [P1]
    congr 1
  · intro hne
    rcases P6 with hcontra | ⟨pre, b, hpre, hblen⟩
    · exact absurd hcontra hne
    · refine ⟨b, ?_, hblen⟩
      show (grouperFuel m l.length l).getLast? = some b
      rw [hpre, List.getLast?_concat]

/-- C1 witness: the batching law applied to three concrete recipients with
batch size two; stitching the real recipients of the batches back together
gives the input. -/
theorem c1_batching_law_witness :
    ((grouper 2 [recA, recB, recC]).map List.reduceOption).flatten = [recA, recB, recC] :=
  (c1_batching_law 2 [recA, recB, recC] (by decide)).2.2.2.1

/-- C5: no batch produced by the grouper is all-sentinel: for batch size
n > 0 every emitted batch has at least one real recipient, so the
zip/alignment step of Mail.send always succeeds on it. -/
theorem c5_no_all_sentinel_batch (n : Nat) (l : List Recipient) (hn : 0 < n)
    (m : Mail) (b : List (Option Recipient)) (hb : b ∈ grouper n l) :
    b.reduceOption ≠ [] ∧ ∃ msg, composeBatch m b = .ok msg := by
  have h1 := grouper_batches_nonempty n l b hb
  exact ⟨h1, composeBatch_ok m b h1⟩

/-- C5 witness: the trailing padded batch of grouping three recipients by two
still holds a real recipient and composes successfully. -/
theorem c5_no_all_sentinel_batch_witness :
    ([some recC, none] : List (Option Recipient)).reduceOption ≠ [] ∧
    ∃ msg, composeBatch exampleMail [some recC, none] = .ok msg :=
  c5_no_all_sentinel_batch 2 [recA, recB, recC] (by decide) exampleMail
    [some recC, none] (by decide)

/-- C6: with dry_run=true, Mail.send returns an empty result list, issues no
transport calls at all, and leaves the composer state untouched, for every
recipient list and batch size. -/
theorem c6_dry_run {TR : Type} (m : Mail) (transport : Message → TR)
    (recipients : List Recipient) (n : Nat) (dry : Bool) (h : dry = true) :
    m.send transport recipients n dry = .ok (m, [], []) := by
  subst h
  obtain ⟨rs, calls, hloop, hdry⟩ :=
    sendLoop_ok m transport true (grouper n recipients)
      (grouper_batches_nonempty n recipients)
  obtain ⟨hrs, hcalls⟩ := hdry rfl
  subst hrs
  subst hcalls
  unfold Mail.send
  rw [hloop]

/-- C6 witness: a dry-run send of three recipients in batches of two returns
no results and makes no transport calls. -/
theorem c6_dry_run_witness :
    exampleMail.send (fun msg => msg) [recA, recB, recC] 2 true =
      .ok (exampleMail, [], []) :=
  c6_dry_run exampleMail (fun msg => msg) [recA, recB, recC] 2 true rfl

/-- C9: Mail.send never modifies the composer state: for every transport,
recipient list, batch size and dry-run flag it succeeds and hands back the
composer unchanged (hence template, images, global merge vars, subject and
sender identity are all as before, and repeated sends build identical
payloads). -/
theorem c9_send_preserves_composer {TR : Type} (m : Mail) (transport : Message → TR)
    (recipients : List Recipient) (n : Nat) (dry : Bool) :
    ∃ results calls, m.send transport recipients n dry = .ok (m, results, calls) := by
  obtain ⟨rs, calls, hloop, h2⟩ :=
    sendLoop_ok m transport dry (grouper n recipients)
      (grouper_batches_nonempty n recipients)
  refine ⟨rs, calls, ?_⟩
  unfold Mail.send
  rw [hloop]

/-- C7: starting from a composer with no global merge variables, adding
test/value then another-test/another-value stores two entries, and removing
another-test leaves exactly the uppercased TEST/value entry. -/
theorem c7_global_merge_var_round_trip :
    ((Mail.cleared.add_global_merge_var "test" "value").add_global_merge_var
      "another-test" "another-value").global_merge_vars.length = 2 ∧
    (((Mail.cleared.add_global_merge_var "test" "value").add_global_merge_var
      "another-test" "another-value").remove_global_merge_var "another-test").map
      Mail.global_merge_vars = some [{ name := "TEST", content := "value" }] :=
  ⟨rfl, rfl⟩

/-- C8: removing a global merge variable whose uppercased name is not stored,
or removing an image under an absent key, fails (returns none, the model of
the ValueError / KeyError raised at the call site) rather than silently
succeeding, and no changed state is produced. -/
theorem c8_remove_missing_fails (m : Mail) (nm k : String)
    (h1 : ∀ v ∈ m.merge_vars, v.name ≠ pyUpper nm)
    (h2 : ∀ p ∈ m.images, p.1 ≠ k) :
    m.remove_global_merge_var nm = none ∧ m.remove_image k = none := by
  constructor
  · have hf : m.merge_vars.find? (fun x => x.name == pyUpper nm) = none := by
      rw [List.find?_eq_none]
      intro x hx
      simpa using h1 x hx
    unfold Mail.remove_global_merge_var
    rw [hf]
  · have hf : m.images.find? (fun p => p.1 == k) = none := by
      rw [List.find?_eq_none]
      intro p hp
      simpa using h2 p hp
    unfold Mail.remove_image
    rw [hf]

/-- C8 witness: on a composer holding one merge variable and one image, both
removals with unknown names fail. -/
theorem c8_remove_missing_fails_witness :
    exampleMail.remove_global_merge_var "missing" = none ∧
    exampleMail.remove_image "nope" = none :=
  c8_remove_missing_fails exampleMail "missing" "nope" (by decide) (by decide)

/-- C4: the name stored by Recipient.__init__ is exactly the spec's derived
display name of the three special keyword arguments: title-cased explicit
name when the keyword is supplied, else "first last" when both parts are
present (supplied and non-empty), else the first name, else empty. -/
theorem c4_name_derivation (email : String) (kwargs : List (String × String)) :
    (Recipient.init email kwargs).name =
      specDerivedName (kwGet kwargs "first_name") (kwGet kwargs "last_name")
        (kwGet kwargs "name") := rfl

/-- Closed form of the name computed by Recipient.init. -/
theorem recipient_init_name (email : String) (kwargs : List (String × String)) :
    (Recipient.init email kwargs).name =
      pyTitle ((kwGet kwargs "name").getD
        (if truthy (kwGet kwargs "first_name") && truthy (kwGet kwargs "last_name")
         then (kwGet kwargs "first_name").getD "" ++ " " ++ (kwGet kwargs "last_name").getD ""
         else if truthy (kwGet kwargs "first_name") then (kwGet kwargs "first_name").getD ""
         else "")) := rfl

/-- C10: with no explicit name keyword, an empty first_name yields the empty
display name whatever last_name is, and an empty last_name with a non-empty
first_name yields the title-cased first name alone. -/
theorem c10_empty_name_parts (email : String) (kwargs : List (String × String))
    (hname : kwGet kwargs "name" = none) :
    (kwGet kwargs "first_name" = some "" → (Recipient.init email kwargs).name = "") ∧
    (∀ s : String, s ≠ "" → kwGet kwargs "first_name" = some s →
      kwGet kwargs "last_name" = some "" →
      (Recipient.init email kwargs).name = pyTitle s) := by
  constructor
  · intro hfn
    rw [recipient_init_name, hname, Option.getD_none, hfn]
    rw [show truthy (some "") = false from rfl]
    simp only [Bool.false_and, Bool.false_eq_true, if_false]
    rfl
  · intro s hs hfn hln
    rw [recipient_init_name, hname, Option.getD_none, hfn, hln]
    rw [show truthy (some "") = false from rfl]
    have h2 : truthy (some s) = true := by
      simp [truthy, hs]
    rw [h2]
    simp

/-- C10 witness: the empty-part rules at concrete inputs. -/
theorem c10_empty_name_parts_witness :
    (Recipient.init "e" [("first_name", ""), ("last_name", "doe")]).name = "" ∧
    (Recipient.init "e" [("first_name", "jo"), ("last_name", "")]).name = pyTitle "jo" :=
  ⟨(c10_empty_name_parts "e" [("first_name", ""), ("last_name", "doe")] rfl).1 rfl,
   (c10_empty_name_parts "e" [("first_name", "jo"), ("last_name", "")] rfl).2 "jo"
     (by decide) rfl rfl⟩

/-- C2 counterexample: the claim reads the email pattern as unanchored, with
any substring match counting.  The field value a@b@c.d has a matching
substring (b@c.d) but re.match finds no match starting at the first
character, and the reader accordingly fails to detect an email field on a
row whose only value is a@b@c.d, where the claim as stated would detect it. -/
theorem c2_counterexample :
    emailSearchAnywhere "a@b@c.d" = true ∧
    emailReMatch "a@b@c.d" = false ∧
    csvfile_to_recipients ["contact"] [["a@b@c.d"]] none =
      .error "Could not guess email field." :=
  ⟨rfl, rfl, rfl⟩

/-- C2 (amended): without an explicit email field the reader scans the first
data row in declared order for a value matched by the pattern at its start
(re.match: anchored at the beginning, not at the end): the selected field is
the first match and all earlier fields fail the matcher; the detected field
is then used for every row (the run equals a run with that field supplied
explicitly); and when no field matches, the reader fails with the
could-not-guess error before yielding any Recipient. -/
theorem c2_email_field_detection (fields : List String) (r0 : List String)
    (rest : List (List String)) (hlen : r0.length = fields.length) :
    (∀ f, findEmailField fields r0 = some f →
      ∃ i : Nat, ∃ v : String, (fields.zip r0)[i]? = some (f, v) ∧
        emailReMatch v = true ∧
        ∀ j : Nat, j < i → ∀ q : String × String,
          (fields.zip r0)[j]? = some q → emailReMatch q.2 = false) ∧
    (∀ f, findEmailField fields r0 = some f →
      csvfile_to_recipients fields (r0 :: rest) none =
        csvfile_to_recipients fields (r0 :: rest) (some f)) ∧
    (findEmailField fields r0 = none →
      csvfile_to_recipients fields (r0 :: rest) none =
        .error "Could not guess email field.") := by
  refine ⟨?_, ?_, ?_⟩
  · intro f hf
    unfold findEmailField at hf
    cases hfind : (fields.zip r0).find? (fun p => emailReMatch p.2) with
    | none => rw [hfind] at hf; cases hf
    | some q =>
      rw [hfind] at hf
      obtain ⟨i, h1, h2, h3⟩ := find?_first_index _ _ _ hfind
      have hq : q.1 = f := by
        simpa using hf
      refine ⟨i, q.2, ?_, h2, h3⟩
      rw [← hq]
      exact h1
  · intro f hf
    show (if r0.length = fields.length then
        match findEmailField fields r0 with
        | none => Except.error "Could not guess email field."
        | some ef =>
          match rowToRecipient fields ef r0 with
          | .error e => .error e
          | .ok r =>
            match mapExcept (rowToRecipient fields ef) rest with
            | .error e => .error e
            | .ok rs => .ok (r :: rs)
      else Except.error "row arity mismatch")
      = mapExcept (rowToRecipient fields f) (r0 :: rest)
    rw [if_pos hlen, hf]
    show (match rowToRecipient fields f r0 with
      | .error e => Except.error e
      | .ok r =>
        match mapExcept (rowToRecipient fields f) rest with
        | .error e => Except.error e
        | .ok rs => Except.ok (r :: rs))
      = mapExcept (rowToRecipient fields f) (r0 :: rest)
    simp only [mapExcept]
    cases hr : rowToRecipient fields f r0 with
    | error e => rfl
    | ok r =>
      cases hrest : mapExcept (rowToRecipient fields f) rest with
      | error e => rfl
      | ok rs => rfl
  · intro hf
    show (if r0.length = fields.length then
        match findEmailField fields r0 with
        | none => Except.error "Could not guess email field."
        | some ef =>
          match rowToRecipient fields ef r0 with
          | .error e => .error e
          | .ok r =>
            match mapExcept (rowToRecipient fields ef) rest with
            | .error e => .error e
            | .ok rs => .ok (r :: rs)
      else Except.error "row arity mismatch")
      = Except.error "Could not guess email field."
    rw [if_pos hlen, hf]

/-- C2 witness: on header a,b with first row x,u@v.w the detector picks field
b and the autodetected run coincides with the explicit-field run. -/
theorem c2_email_field_detection_witness :
    csvfile_to_recipients ["a", "b"] [["x", "u@v.w"]] none =
      csvfile_to_recipients ["a", "b"] [["x", "u@v.w"]] (some "b") :=
  (c2_email_field_detection ["a", "b"] ["x", "u@v.w"] [] rfl).2.1 "b" rfl

/-- C3 counterexample: with a CSV column literally named email, the produced
Recipient carries no EMAIL merge tag at all: the email key of the row kwargs
is bound to the email parameter of Recipient.__init__ and is absent from the
captured keyword arguments, so the claim that every CSV column becomes a
merge tag fails on header email,first_name with row a@b.c,john. -/
theorem c3_counterexample :
    (csvfile_to_recipients ["email", "first_name"] [["a@b.c", "john"]] none).map
      (fun rs => rs.map Recipient.merge_vars) =
      .ok [[{ name := "FIRST_NAME", content := "john" }]] ∧
    ({ name := "EMAIL", content := "a@b.c" } : MergeVar) ∉
      [({ name := "FIRST_NAME", content := "john" } : MergeVar)] :=
  ⟨rfl, by decide⟩

/-- C3 (amended): for every successfully parsed data row the reader yields
exactly one Recipient whose email is the resolved email-field value, and
every CSV column except a column named email becomes a merge tag: the
merge_vars are exactly the uppercased-name/value pairs of the row in declared
order with any email column dropped (that column is consumed by the email
parameter of the constructor and yields no merge tag). -/
theorem c3_merge_tags (fields : List String) (ef : String) (rows : List (List String))
    (rs : List Recipient) (h : csvfile_to_recipients fields rows (some ef) = .ok rs) :
    rs.length = rows.length ∧
    ∀ i : Nat, ∀ row : List String, rows[i]? = some row → ∃ r : Recipient,
      rs[i]? = some r ∧
      (∃ v, List.lookup ef (fields.zip row) = some v ∧ r.email = v) ∧
      r.merge_vars = ((fields.zip row).filter (fun p => p.1 != "email")).map
        (fun p => { name := pyUpper p.1, content := p.2 }) := by
  have h2 : mapExcept (rowToRecipient fields ef) rows = .ok rs := h
  clear h
  induction rows generalizing rs with
  | nil =>
    simp only [mapExcept] at h2
    injection h2 with h3
    subst h3
    refine ⟨rfl, ?_⟩
    intro i row hrow
    simp at hrow
  | cons a as ih =>
    simp only [mapExcept] at h2
    cases hfa : rowToRecipient fields ef a with
    | error e => rw [hfa] at h2; cases h2
    | ok r0 =>
      rw [hfa] at h2
      cases hrest : mapExcept (rowToRecipient fields ef) as with
      | error e => rw [hrest] at h2; cases h2
      | ok rs2 =>
        rw [hrest] at h2
        injection h2 with h3
        subst h3
        obtain ⟨hlen2, hidx⟩ := ih rs2 hrest
        obtain ⟨v, hv, hr0⟩ := rowToRecipient_ok hfa
        refine ⟨by simp [hlen2], ?_⟩
        intro i row hrow
        cases i with
        | zero =>
          obtain rfl : a = row := by simpa using hrow
          refine ⟨r0, by simp, ⟨v, hv, ?_⟩, ?_⟩
          · rw [hr0]
            rfl
          · rw [hr0]
            rfl
        | succ i2 =>
          obtain ⟨r, hri, hre, hrm⟩ := hidx i2 row (by simpa using hrow)
          exact ⟨r, by simpa using hri, hre, hrm⟩

/-- C3 witness: header mail,first_name with row u@v.w,bob yields exactly one
Recipient whose email is the looked-up value of the mail column and whose
merge tags are the uppercased columns. -/
theorem c3_merge_tags_witness :
    ∃ r : Recipient, ([recBob] : List Recipient)[0]? = some r ∧
      (∃ v, List.lookup "mail" (["mail", "first_name"].zip ["u@v.w", "bob"]) = some v ∧
        r.email = v) ∧
      r.merge_vars = (((["mail", "first_name"].zip ["u@v.w", "bob"]).filter
        (fun p => p.1 != "email")).map (fun p => { name := pyUpper p.1, content := p.2 })) :=
  (c3_merge_tags ["mail", "first_name"] "mail" [["u@v.w", "bob"]] [recBob] rfl).2
    0 ["u@v.w", "bob"] rfl
